import Mathlib

/-!
Shallow embedding of the request-dispatch path of the node-musixmatch-api
client (src/classes/musixmatch.ts and src/classes/expectations.ts).

The embedding models:
- the fixed status-code-to-message table and the `MXMException` constructor
  (`message ?? MXMException.codes[status_code] ?? 'Unknown Error'`);
- the `MusixmatchError` transport error (its constructor takes a message and
  a url; the url is modelled as `Option String` because the call sites in
  `_apiCall` pass only one argument, leaving `requestUrl` undefined);
- `_apiCall`: the try block (axios request, status check, `MXMException`
  throw on non-200) and the catch block (classification of whatever was
  thrown, including the `MXMException` thrown by the try block itself);
- the `key=value` parameter parsing done by every endpoint method
  (`Object.fromEntries(params.map((param) => param.split('=')))`), with
  JavaScript semantics: `split('=')` splits on every `=`, `fromEntries`
  reads only elements 0 and 1 of each entry and later duplicate keys
  overwrite earlier ones in place;
- the query-parameter merge `params ? { ...params, apikey } : { apikey }`.

JavaScript objects are modelled as association lists with unique keys in
insertion order; property values that can be `undefined` are `Option String`.
-/

namespace MusixmatchApi

/-- The fixed base URL of the remote service. -/
def baseUrl : String := "https://api.musixmatch.com/ws/1.1/"

/-- The response envelope header: `message.header` of every response body.
`hint` is the optional human-readable detail; `none` models an absent
field. -/
structure MXMHeader where
  status_code : Int
  execute_time : Int
  hint : Option String
deriving Repr, DecidableEq

/-- The `message` wrapper of the envelope: header plus endpoint-specific
body. -/
structure MXMMessage (β : Type) where
  header : MXMHeader
  body : β
deriving Repr, DecidableEq

/-- The whole parsed response body (`response.data`). -/
structure ResponseData (β : Type) where
  message : MXMMessage β
deriving Repr, DecidableEq

/-- The service error `MXMException` of expectations.ts: status code,
resolved message and the request URL. -/
structure MXMException where
  status_code : Int
  message : String
  requestURL : String
deriving Repr, DecidableEq

/-- The static `MXMException.codes` table of expectations.ts. -/
def MXMException.codes (c : Int) : Option String :=
  if c = 400 then
    some "The request had bad syntax or was inherently impossible to be satisfied."
  else if c = 401 then
    some "Authentication failed, probably because of invalid/missing API key."
  else if c = 402 then
    some "The usage limit has been reached, either you exceeded per day requests limits or your balance is insufficient."
  else if c = 403 then
    some "You are not authorized to perform this operation."
  else if c = 404 then
    some "The requested resource was not found."
  else if c = 405 then
    some "The requested method was not found."
  else if c = 500 then
    some "Ops. Something went wrong."
  else if c = 503 then
    some "Our system is a bit busy at the moment and your request can\x27t be satisfied."
  else none

/-- The `MXMException` constructor: the message argument may be null
(modelled `none`), and the resolved message is
`message ?? MXMException.codes[status_code] ?? 'Unknown Error'`. -/
def mkMXMException (status_code : Int) (requestURL : String)
    (message : Option String) : MXMException :=
  let errorMessage := message.getD ((MXMException.codes status_code).getD "Unknown Error")
  ⟨status_code, errorMessage, requestURL⟩

/-- The transport error `MusixmatchError` of expectations.ts. Its
constructor signature requires a url, but both call sites in `_apiCall`
pass a single argument, so `requestUrl` can be undefined (`none`). -/
structure MusixmatchError where
  message : String
  requestUrl : Option String
deriving Repr, DecidableEq

/-- The `MusixmatchError` constructor. -/
def mkMusixmatchError (message : String) (url : Option String) : MusixmatchError :=
  ⟨message, url⟩

/-- `response.data.message.header.hint || null`: JavaScript `||` turns a
falsy hint (absent field or empty string) into null. -/
def hintOrNull (hint : Option String) : Option String :=
  match hint with
  | some s => if s = "" then none else some s
  | none => none

/-- Outcome of the awaited `axios.request` call, as seen by `_apiCall`:
either a transport-level success carrying the parsed body and the resolved
config URL, or one of the three transport failure shapes distinguished by
the catch block (an error with an HTTP response, a connection-refused
error, or any other failure carrying only a message). -/
inductive AxiosOutcome (β : Type) where
  | success (data : ResponseData β) (configUrl : String)
  | httpError (status : Int) (data : String)
  | connRefused
  | failure (message : String)
deriving Repr, DecidableEq

/-- Whatever reaches the catch block of `_apiCall`: either the
`MXMException` thrown by the status check inside the try block, or one of
the axios failure shapes. -/
inductive CaughtError where
  | mxm (e : MXMException)
  | httpError (status : Int) (data : String)
  | connRefused
  | generic (message : String)
deriving Repr, DecidableEq

/-- The try block of `_apiCall`: await the request; on transport success
read `message.header.status_code`; return `response.data` if it is 200,
otherwise throw `new MXMException(status_code, response.config.url, hint)`
where `hint` is `header.hint || null`. Transport failures propagate to the
catch block. -/
def tryBlock {β : Type} (outcome : AxiosOutcome β) :
    Except CaughtError (ResponseData β) :=
  match outcome with
  | .success data configUrl =>
    if data.message.header.status_code = 200 then
      .ok data
    else
      .error (.mxm (mkMXMException data.message.header.status_code configUrl
        (hintOrNull data.message.header.hint)))
  | .httpError status data => .error (.httpError status data)
  | .connRefused => .error .connRefused
  | .failure msg => .error (.generic msg)

/-- The catch block of `_apiCall`: if the caught error has a `.response`,
throw `new MusixmatchError("Status code: ...\nHTTP error occurred: ...")`;
else if its `.code` is ECONNREFUSED, throw
`new MusixmatchError('Connection refused')`; else throw
`new MusixmatchError(error.message)`. An `MXMException` has neither a
`.response` nor a `.code`, so it falls into the last branch and only its
message survives. No call site passes the second (url) argument. -/
def catchBlock (e : CaughtError) : MusixmatchError :=
  match e with
  | .httpError status data =>
    mkMusixmatchError ("Status code: " ++ toString status ++ "\nHTTP error occurred: " ++ data) none
  | .connRefused => mkMusixmatchError "Connection refused" none
  | .mxm exc => mkMusixmatchError exc.message none
  | .generic msg => mkMusixmatchError msg none

/-- `_apiCall` as observed by the caller: the try block, with every thrown
value translated by the catch block. The only error type a caller can ever
receive is `MusixmatchError`. -/
def apiCall {β : Type} (outcome : AxiosOutcome β) :
    Except MusixmatchError (ResponseData β) :=
  match tryBlock outcome with
  | .ok d => .ok d
  | .error e => .error (catchBlock e)

/-- The message of the error surfaced by a call, if the call failed. -/
def callErrorMessage {β : Type} (r : Except MusixmatchError (ResponseData β)) :
    Option String :=
  match r with
  | .ok _ => none
  | .error e => some e.message

/-! ### Parameter parsing and the query-parameter merge -/

/-- JavaScript `s.split('=')` on a list of characters: split on every
occurrence of `=`, keeping empty segments, always returning at least one
segment. -/
def jsSplitEqChars (l : List Char) : List (List Char) :=
  match l with
  | [] => [[]]
  | c :: rest =>
    match jsSplitEqChars rest with
    | [] => [[c]]
    | h :: t => if c = '=' then [] :: h :: t else (c :: h) :: t

/-- JavaScript `s.split('=')` on strings. -/
def jsSplitEq (s : String) : List String :=
  (jsSplitEqChars s.toList).map List.asString

/-- `entry[0]` of a split result. A split result is never empty, so the
default is unreachable. -/
def entryKey (e : List String) : String := e.getD 0 ""

/-- `entry[1]` of a split result: undefined (`none`) when the parameter
string contained no `=`. -/
def entryValue (e : List String) : Option String := e.get? 1

/-- The entry `Object.fromEntries` reads from one parameter string:
elements 0 and 1 of `param.split('=')`; any further segments are ignored. -/
def entryOf (p : String) : String × Option String :=
  (entryKey (jsSplitEq p), entryValue (jsSplitEq p))

/-- JavaScript object property assignment `obj[k] = v` on an association
list with unique keys: overwrite in place if the key exists, else append. -/
def objInsert {α : Type} (obj : List (String × α)) (k : String) (v : α) :
    List (String × α) :=
  if obj.any (fun p => p.1 = k) then
    obj.map (fun p => if p.1 = k then (k, v) else p)
  else
    obj ++ [(k, v)]

/-- JavaScript property lookup on the association-list model. -/
def lookupJs {α : Type} (obj : List (String × α)) (k : String) : Option α :=
  match obj with
  | [] => none
  | p :: rest => if k = p.1 then some p.2 else lookupJs rest k

/-- `Object.fromEntries`: assign each entry in order into a fresh object,
so a later entry with the same key overwrites an earlier one. -/
def fromEntries (entries : List (String × Option String)) :
    List (String × Option String) :=
  entries.foldl (fun obj e => objInsert obj e.1 e.2) []

/-- The query-parameter object an endpoint method builds from its variadic
`key=value` strings:
`Object.fromEntries(params.map((param) => param.split('=')))`. -/
def buildQueryParams (params : List String) : List (String × Option String) :=
  fromEntries (params.map entryOf)

/-- The params option of `_apiCall`:
`params ? { ...params, apikey: this.apikey } : { apikey: this.apikey }`.
The stored credential may itself be undefined. -/
def requestParams (apikey : Option String)
    (params : Option (List (String × Option String))) :
    List (String × Option String) :=
  match params with
  | some ps => objInsert ps "apikey" apikey
  | none => [("apikey", apikey)]

/-- The request assembled by `_apiCall`: method, resolved URL
(`baseUrl + apiMethod`) and merged query parameters. -/
structure ApiRequest where
  method : String
  url : String
  params : List (String × Option String)
deriving Repr, DecidableEq

/-- URL and parameter assembly of `_apiCall`. -/
def mkApiRequest (apikey : Option String) (method apiMethod : String)
    (params : Option (List (String × Option String))) : ApiRequest :=
  ⟨method, baseUrl ++ apiMethod, requestParams apikey params⟩

/-- The request built by any of the variadic endpoint methods (for example
`trackSearch`): parse the `key=value` strings and dispatch. -/
def endpointRequest (apikey : Option String) (method apiMethod : String)
    (params : List String) : ApiRequest :=
  mkApiRequest apikey method apiMethod (some (buildQueryParams params))

/-- The request built by `trackSearch`. -/
def trackSearchRequest (apikey : Option String) (params : List String) :
    ApiRequest :=
  endpointRequest apikey "get" "track.search" params

/-- The request built by `musicGenresGet`, the one endpoint that calls
`_apiCall('get', 'music.genres.get')` with no params argument. -/
def musicGenresGetRequest (apikey : Option String) : ApiRequest :=
  mkApiRequest apikey "get" "music.genres.get" none

end MusixmatchApi

namespace MusixmatchApi

/-- A JavaScript split result is never the empty list. -/
theorem jsSplitEqChars_ne_nil (l : List Char) : jsSplitEqChars l ≠ [] := by
  cases l with
  | nil => simp [jsSplitEqChars]
  | cons c rest =>
    simp only [jsSplitEqChars]
    cases jsSplitEqChars rest with
    | nil => simp
    | cons h t =>
      by_cases hc : c = '=' <;> simp [hc]

/-- Splitting a string that starts with the separator. -/
theorem jsSplitEqChars_cons_eq (rest : List Char) :
    jsSplitEqChars ('=' :: rest) = [] :: jsSplitEqChars rest := by
  cases hsplit : jsSplitEqChars rest with
  | nil => exact absurd hsplit (jsSplitEqChars_ne_nil rest)
  | cons h t => simp [jsSplitEqChars, hsplit]

/-- Splitting a string that starts with a non-separator character. -/
theorem jsSplitEqChars_cons_ne (c : Char) (rest : List Char) (hc : c ≠ '=') :
    jsSplitEqChars (c :: rest) =
      (c :: (jsSplitEqChars rest).headD []) :: (jsSplitEqChars rest).tail := by
  cases hsplit : jsSplitEqChars rest with
  | nil => exact absurd hsplit (jsSplitEqChars_ne_nil rest)
  | cons h t => simp [jsSplitEqChars, hsplit, hc]

/-- The first segment of `k ++ "=" ++ v` is `k` when `k` has no separator. -/
theorem jsSplitEqChars_append (k v : List Char) (hk : '=' ∉ k) :
    jsSplitEqChars (k ++ '=' :: v) = k :: jsSplitEqChars v := by
  induction k with
  | nil => simpa using jsSplitEqChars_cons_eq v
  | cons c k ih =>
    have hc : c ≠ '=' := by
      intro h
      exact hk (by simp [h])
    have hk' : '=' ∉ k := fun h => hk (List.mem_cons_of_mem _ h)
    rw [List.cons_append, jsSplitEqChars_cons_ne c _ hc, ih hk']
    simp

/-- The first split segment is the prefix up to the first separator. -/
theorem headD_jsSplitEqChars (v : List Char) :
    (jsSplitEqChars v).headD [] = v.takeWhile (fun c => c ≠ '=') := by
  induction v with
  | nil => simp [jsSplitEqChars]
  | cons c rest ih =>
    by_cases hc : c = '='
    · subst hc
      rw [jsSplitEqChars_cons_eq, List.headD_cons]
      simp [List.takeWhile_cons]
    · rw [jsSplitEqChars_cons_ne c rest hc, List.headD_cons, ih]
      simp [List.takeWhile_cons, hc]

/-- The entry produced from one `key=value` parameter string: the key is
the prefix before the first separator, the value is the segment between
the first and second separators. -/
theorem entryOf_eq (k v : List Char) (hk : '=' ∉ k) :
    entryOf (k ++ '=' :: v).asString =
      (k.asString, some ((v.takeWhile (fun c => c ≠ '=')).asString)) := by
  have htl : (k ++ '=' :: v).asString.toList = k ++ '=' :: v := rfl
  unfold entryOf jsSplitEq entryKey entryValue
  rw [htl, jsSplitEqChars_append k v hk]
  cases hsplit : jsSplitEqChars v with
  | nil => exact absurd hsplit (jsSplitEqChars_ne_nil v)
  | cons h t =>
    have hh : h = v.takeWhile (fun c => c ≠ '=') := by
      have hd := headD_jsSplitEqChars v
      rw [hsplit] at hd
      simpa using hd
    simp [hsplit, hh]

end MusixmatchApi

namespace MusixmatchApi

/-- Lookup distributes over append, preferring the left list. -/
theorem lookupJs_append {α : Type} (l₁ l₂ : List (String × α)) (q : String) :
    lookupJs (l₁ ++ l₂) q =
      match lookupJs l₁ q with
      | some v => some v
      | none => lookupJs l₂ q := by
  induction l₁ with
  | nil => simp [lookupJs]
  | cons p rest ih =>
    by_cases hq : q = p.1
    · simp [lookupJs, hq]
    · simp [lookupJs, hq, ih]

/-- Lookup misses when no pair carries the key. -/
theorem lookupJs_eq_none_of_any_eq_false {α : Type} (obj : List (String × α))
    (q : String) (h : obj.any (fun p => p.1 = q) = false) :
    lookupJs obj q = none := by
  induction obj with
  | nil => rfl
  | cons p rest ih =>
    simp only [List.any_cons, Bool.or_eq_false_iff, decide_eq_false_iff_not] at h
    have hq : q ≠ p.1 := fun hq => h.1 hq.symm
    simp only [lookupJs, if_neg hq]
    exact ih (by simpa using h.2)

/-- Replacing every pair that carries the key makes lookup find the new
value, provided some pair carries the key. -/
theorem lookupJs_map_replace_self {α : Type} (obj : List (String × α))
    (k : String) (v : α) (h : obj.any (fun p => p.1 = k) = true) :
    lookupJs (obj.map (fun p => if p.1 = k then (k, v) else p)) k = some v := by
  induction obj with
  | nil => simp at h
  | cons p rest ih =>
    by_cases hp : p.1 = k
    · simp [lookupJs, hp]
    · have h' : rest.any (fun p => p.1 = k) = true := by
        simpa [hp] using h
      have hk : ¬ k = p.1 := fun hq => hp hq.symm
      simpa [lookupJs, hp, hk] using ih h'

/-- Replacing pairs that carry a different key leaves lookup unchanged. -/
theorem lookupJs_map_replace_other {α : Type} (obj : List (String × α))
    (k : String) (v : α) (q : String) (hq : q ≠ k) :
    lookupJs (obj.map (fun p => if p.1 = k then (k, v) else p)) q =
      lookupJs obj q := by
  induction obj with
  | nil => rfl
  | cons p rest ih =>
    by_cases hp : p.1 = k
    · have hqp : ¬ q = p.1 := by rw [hp]; exact hq
      simp [lookupJs, hp, hq, hqp, ih]
    · simp [lookupJs, hp, ih]

/-- JavaScript property assignment followed by lookup: the assigned key now
maps to the new value and every other key is untouched. -/
theorem lookupJs_objInsert {α : Type} (obj : List (String × α)) (k : String)
    (v : α) (q : String) :
    lookupJs (objInsert obj k v) q = if q = k then some v else lookupJs obj q := by
  cases hany : obj.any (fun p => p.1 = k) with
  | true =>
    by_cases hq : q = k
    · subst hq
      simp [objInsert, hany, lookupJs_map_replace_self obj q v hany]
    · simp [objInsert, hany, hq, lookupJs_map_replace_other obj k v q hq]
  | false =>
    by_cases hq : q = k
    · subst hq
      simp [objInsert, hany, lookupJs_append,
        lookupJs_eq_none_of_any_eq_false obj q hany, lookupJs]
    · simp only [objInsert, hany, Bool.false_eq_true, if_false, if_neg hq,
        lookupJs_append]
      cases hl : lookupJs obj q with
      | some w => simp
      | none => simp [lookupJs, hq]

/-- Assigning a list of entries in order into an object: lookup returns the
last assigned value for the key, or falls back to the initial object. -/
theorem lookupJs_foldl_objInsert {α : Type} (entries : List (String × α))
    (obj : List (String × α)) (q : String) :
    lookupJs (entries.foldl (fun o e => objInsert o e.1 e.2) obj) q =
      match (entries.filter (fun e => e.1 = q)).getLast? with
      | some e => some e.2
      | none => lookupJs obj q := by
  induction entries generalizing obj with
  | nil => simp
  | cons e rest ih =>
    rw [List.foldl_cons, ih]
    by_cases he : e.1 = q
    · rw [List.filter_cons_of_pos (by simpa using he)]
      cases hf : rest.filter (fun x => x.1 = q) with
      | nil =>
        simp only [hf, List.getLast?_singleton]
        rw [lookupJs_objInsert]
        simp [he]
      | cons x xs =>
        simp only [hf, List.getLast?_cons_cons]
        cases hg : (x :: xs).getLast? with
        | some y => rfl
        | none => simp [List.getLast?_eq_none_iff] at hg
    · rw [List.filter_cons_of_neg (by simpa using he)]
      cases hf : (rest.filter (fun x => x.1 = q)).getLast? with
      | some x => simp [hf]
      | none =>
        simp only [hf]
        rw [lookupJs_objInsert, if_neg (fun h : q = e.1 => he h.symm)]

end MusixmatchApi

namespace MusixmatchApi

/-- The last value assigned to a key by the parameter strings, if the key
occurs at all: what claim C10 predicts the built mapping holds. -/
def lastValueOf (params : List String) (q : String) : Option (Option String) :=
  (((params.map entryOf).filter (fun e => e.1 = q)).getLast?).map Prod.snd

/-- C3: a dispatched call whose envelope header has status code 200
returns the full parsed response body unchanged (round-trip identity). -/
theorem ok_envelope_returned_unchanged {β : Type} (data : ResponseData β)
    (configUrl : String) (h : data.message.header.status_code = 200) :
    apiCall (AxiosOutcome.success data configUrl) = Except.ok data := by
  simp [apiCall, tryBlock, h]

/-- Witness for C3 on a concrete envelope. -/
theorem ok_envelope_returned_unchanged_witness :
    apiCall (AxiosOutcome.success
        (⟨⟨⟨200, 3, none⟩, (7 : Nat)⟩⟩ : ResponseData Nat) "u") =
      Except.ok ⟨⟨⟨200, 3, none⟩, 7⟩⟩ :=
  ok_envelope_returned_unchanged (⟨⟨⟨200, 3, none⟩, (7 : Nat)⟩⟩ : ResponseData Nat) "u" rfl

/-- C4: when a non-200 envelope carries a non-empty hint, the message of
the error the caller receives is the hint text, not the table entry. -/
theorem hint_overrides_table_message {β : Type} (data : ResponseData β)
    (cfg s : String) (hs : data.message.header.status_code ≠ 200)
    (hh : data.message.header.hint = some s) (hne : s ≠ "") :
    callErrorMessage (apiCall (AxiosOutcome.success data cfg)) = some s := by
  simp [apiCall, tryBlock, catchBlock, callErrorMessage, mkMXMException,
    mkMusixmatchError, hintOrNull, hh, hne, if_neg hs]

/-- Witness for C4: status 402 with hint text. -/
theorem hint_overrides_table_message_witness :
    callErrorMessage (apiCall (AxiosOutcome.success
        (⟨⟨⟨402, 1, some "try later"⟩, (0 : Nat)⟩⟩ : ResponseData Nat) "u")) =
      some "try later" :=
  hint_overrides_table_message
    (⟨⟨⟨402, 1, some "try later"⟩, (0 : Nat)⟩⟩ : ResponseData Nat) "u" "try later"
    (by decide) rfl (by decide)

/-- C5: when a non-200 envelope carries no hint, the message of the error
the caller receives is the fixed table entry for the eight table codes and
the generic unknown-error text for any other code. -/
theorem table_or_unknown_message_when_no_hint {β : Type} (data : ResponseData β)
    (cfg : String) (hs : data.message.header.status_code ≠ 200)
    (hh : data.message.header.hint = none) :
    callErrorMessage (apiCall (AxiosOutcome.success data cfg)) =
      some (if data.message.header.status_code = 400 then
        "The request had bad syntax or was inherently impossible to be satisfied."
      else if data.message.header.status_code = 401 then
        "Authentication failed, probably because of invalid/missing API key."
      else if data.message.header.status_code = 402 then
        "The usage limit has been reached, either you exceeded per day requests limits or your balance is insufficient."
      else if data.message.header.status_code = 403 then
        "You are not authorized to perform this operation."
      else if data.message.header.status_code = 404 then
        "The requested resource was not found."
      else if data.message.header.status_code = 405 then
        "The requested method was not found."
      else if data.message.header.status_code = 500 then
        "Ops. Something went wrong."
      else if data.message.header.status_code = 503 then
        "Our system is a bit busy at the moment and your request can\x27t be satisfied."
      else "Unknown Error") := by
  simp only [apiCall, tryBlock, callErrorMessage, catchBlock, mkMXMException,
    mkMusixmatchError, hintOrNull, hh, if_neg hs, Option.getD_none]
  simp only [MXMException.codes]
  split_ifs <;> rfl

/-- Witness for C5: status 404, no hint. -/
theorem table_or_unknown_message_when_no_hint_witness :
    callErrorMessage (apiCall (AxiosOutcome.success
        (⟨⟨⟨404, 1, none⟩, (0 : Nat)⟩⟩ : ResponseData Nat) "u")) =
      some "The requested resource was not found." := by
  have h := table_or_unknown_message_when_no_hint
    (⟨⟨⟨404, 1, none⟩, (0 : Nat)⟩⟩ : ResponseData Nat) "u" (by decide) rfl
  simpa using h

/-- C1 (code bug): on a non-200 envelope the try block does construct the
MXMException with the header status code and the resolved config URL, but
the throw happens inside the dispatcher's own try, so the catch block
rewraps it: the caller receives a MusixmatchError carrying only the
resolved message, with no status code and no URL. -/
theorem mxmException_swallowed_by_own_catch :
    tryBlock (AxiosOutcome.success
        (⟨⟨⟨401, 12, none⟩, (0 : Nat)⟩⟩ : ResponseData Nat)
        "https://api.musixmatch.com/ws/1.1/track.get") =
      Except.error (CaughtError.mxm ⟨401,
        "Authentication failed, probably because of invalid/missing API key.",
        "https://api.musixmatch.com/ws/1.1/track.get"⟩) ∧
    apiCall (AxiosOutcome.success
        (⟨⟨⟨401, 12, none⟩, (0 : Nat)⟩⟩ : ResponseData Nat)
        "https://api.musixmatch.com/ws/1.1/track.get") =
      Except.error (mkMusixmatchError
        "Authentication failed, probably because of invalid/missing API key." none) :=
  ⟨rfl, rfl⟩

/-- C6 (code bug): a connection-refused failure yields a MusixmatchError
with the fixed message, but the call site passes no second argument, so the
error carries no URL at all. -/
theorem connection_refused_transport_error :
    apiCall (β := Unit) AxiosOutcome.connRefused =
      Except.error (mkMusixmatchError "Connection refused" none) := rfl

/-- C7 (code bug): a transport failure that carries an HTTP response yields
a MusixmatchError whose message embeds the HTTP status and the raw body,
but the call site passes no second argument, so the error carries no URL. -/
theorem http_response_transport_error :
    apiCall (β := Unit) (AxiosOutcome.httpError 500 "Internal Server Error") =
      Except.error (mkMusixmatchError
        "Status code: 500\nHTTP error occurred: Internal Server Error" none) := rfl

end MusixmatchApi

namespace MusixmatchApi

/-- C2 counterexample: for the parameter string "q=a=b" the built mapping
holds "a", not "a=b" — the split is not restricted to the first `=`; the
segment after the second `=` is dropped by the entry conversion. -/
theorem split_truncates_value_counterexample :
    buildQueryParams ["q=a=b"] = [("q", some "a")] ∧
    lookupJs (buildQueryParams ["q=a=b"]) "q" ≠ some (some "a=b") := by
  constructor
  · decide
  · decide

/-- C2 amended: each parameter string is split on every `=`; the mapping
binds the segment before the first `=` to the segment between the first and
second `=` (later segments are dropped), and for the inputs
"q_artist=A B" and "q_track=C", whose values contain no further `=`, the
mapping is exactly as the claim states. -/
theorem buildQueryParams_splits_on_every_eq (k v : List Char) (hk : '=' ∉ k) :
    buildQueryParams [(k ++ '=' :: v).asString] =
      [(k.asString, some ((v.takeWhile (fun c => c ≠ '=')).asString))] ∧
    buildQueryParams ["q_artist=A B", "q_track=C"] =
      [("q_artist", some "A B"), ("q_track", some "C")] := by
  constructor
  · simp [buildQueryParams, fromEntries, entryOf_eq k v hk, objInsert]
  · decide

/-- Witness for C2 amended at the concrete string "q=a=b". -/
theorem buildQueryParams_splits_on_every_eq_witness :
    buildQueryParams [("q".toList ++ '=' :: "a=b".toList).asString] =
      [("q".toList.asString,
        some (("a=b".toList.takeWhile (fun c => c ≠ '=')).asString))] :=
  (buildQueryParams_splits_on_every_eq "q".toList "a=b".toList (by decide)).1

/-- C8: the query parameters sent are the caller's mapping with the stored
credential assigned under the key "apikey" (appended when the caller did
not use that key), and `musicGenresGet`, which passes no params argument,
sends the credential alone. -/
theorem query_params_merge_apikey (apikey : Option String)
    (m path : String) (params : List String) :
    (endpointRequest apikey m path params).params =
      objInsert (buildQueryParams params) "apikey" apikey ∧
    ((buildQueryParams params).any (fun p => p.1 = "apikey") = false →
      (endpointRequest apikey m path params).params =
        buildQueryParams params ++ [("apikey", apikey)]) ∧
    (musicGenresGetRequest apikey).params = [("apikey", apikey)] := by
  refine ⟨rfl, ?_, rfl⟩
  intro h
  simp [endpointRequest, mkApiRequest, requestParams, objInsert, h]

/-- Witness for C8 on a concrete call. -/
theorem query_params_merge_apikey_witness :
    (endpointRequest (some "KEY") "get" "track.search" ["q_track=24"]).params =
      buildQueryParams ["q_track=24"] ++ [("apikey", some "KEY")] :=
  (query_params_merge_apikey (some "KEY") "get" "track.search" ["q_track=24"]).2.1
    (by decide)

/-- C9: whatever parameter strings the caller passes — including one that
assigns the key "apikey" — the merged query parameters map "apikey" to the
stored credential, because the credential is assigned after the spread. -/
theorem apikey_not_overridable (apikey : Option String) (params : List String) :
    lookupJs (requestParams apikey (some (buildQueryParams params))) "apikey" =
      some apikey := by
  simp [requestParams, lookupJs_objInsert]

/-- C10: building the mapping from the variadic parameter strings never
fails, and a key that occurs in several strings is bound to the value from
the last such string; earlier occurrences are discarded. -/
theorem duplicate_keys_last_wins (params : List String) (q : String) :
    lookupJs (buildQueryParams params) q = lastValueOf params q := by
  unfold buildQueryParams fromEntries lastValueOf
  rw [lookupJs_foldl_objInsert]
  cases hg : ((params.map entryOf).filter (fun e => e.1 = q)).getLast? with
  | some e => simp [hg]
  | none => simp [hg, lookupJs]

end MusixmatchApi
